import Mathlib

/-!
Shallow embedding of the mission-impossible signaling relay.

Server side (`server/index.js`): a WebSocket relay keeping a global map
`rooms` from room code to a list of session records, with per-connection
closure variables `roomId`, `userId`, `key`.  Inbound messages are parsed
JSON envelopes dispatched on their `type` field; `join` registers the
session, `signal` and `yt-sync` relay to the other sessions of the
sender's current room, a parse failure is answered with an `error`
envelope, and a connection close evicts the session from its current
room, deleting the room when it empties.

Client side (`src/App.tsx`): the WebSocket `onmessage` handler drives the
WebRTC negotiation (apply remote descriptions, answer offers, add ICE
candidates) and applies `yt-sync` events to the YouTube player;
`startCall` creates and sends an offer; a 5000 ms interval emits a
corrective seek while the client is the host.

JavaScript details that matter and are modelled explicitly: property
access with an `undefined` key reads the property named "undefined"
(`jsKey`); `JSON.stringify` drops object fields whose value is
`undefined` (the `optStrField` family); `Buffer.from(undefined, hex)`
throws, so a `join` without a `key` field is answered by the catch-all
`error` branch after the closure variables `roomId`/`userId` were already
rebound; the empty string is falsy (`optTruthy`).
-/

/-- JSON-like values appearing in the envelopes of this protocol: strings,
numbers, and the opaque signaling payload object relayed verbatim. -/
inductive JVal where
  | s (v : String)
  | n (v : Rat)
  | pay (sdpType : Option (String × String)) (candidate : Option String)
deriving DecidableEq, Repr

/-- A serialized JSON object: the ordered field list that
`JSON.stringify` produces (fields with `undefined` values are absent). -/
abbrev JObj := List (String × JVal)

/-- An SDP session description as carried in a signaling payload:
its `type` field (offer or answer) and opaque content. -/
structure Sdp where
  sdpType : String
  content : String
deriving DecidableEq, Repr

/-- The `payload` object of a `signal` envelope: an optional `sdp` field
and an optional `candidate` field, as read by the client handler. -/
structure SigPayloadData where
  sdp : Option Sdp := none
  candidate : Option String := none
deriving DecidableEq, Repr

/-- A parsed inbound JSON envelope (the result of `JSON.parse`): every
field the server or client reads, each optional because JSON objects may
omit any of them. -/
structure InMsg where
  type : Option String := none
  room : Option String := none
  user : Option String := none
  key : Option String := none
  payload : Option SigPayloadData := none
  action : Option String := none
  time : Option Rat := none
  videoId : Option String := none
deriving DecidableEq, Repr

/-- A raw inbound WebSocket message: either malformed (JSON.parse throws,
carrying the thrown error's message) or a parsed envelope. -/
inductive RawMsg where
  | malformed (errMsg : String)
  | msg (d : InMsg)
deriving DecidableEq, Repr

/-- One session record as pushed into `rooms[roomId]` by the join branch:
the connection handle, the display name and the declared key material. -/
structure SessionRec where
  ws : Nat
  userId : Option String
  key : String
deriving DecidableEq, Repr

/-- The per-connection closure variables `roomId`, `userId`, `key` of the
connection handler in `server/index.js`. -/
structure Conn where
  roomId : Option String := none
  userId : Option String := none
  key : Option String := none
deriving DecidableEq, Repr

/-- The whole server state: the global `rooms` object (an insertion-order
association list, as a JavaScript object is) and the closure variables of
every open connection. -/
structure ServerState where
  rooms : List (String × List SessionRec)
  conns : List (Nat × Conn)
deriving DecidableEq, Repr

/-- JavaScript property-key coercion: indexing an object with `undefined`
reads the property literally named "undefined". -/
def jsKey : Option String → String
  | some r => r
  | none => "undefined"

/-- JavaScript truthiness of a possibly-undefined string: `undefined` and
the empty string are falsy. -/
def optTruthy : Option String → Bool
  | some r => !(r == "")
  | none => false

/-- Set a key of an association list, replacing any previous binding. -/
def alistInsert {κ α : Type} [BEq κ] (m : List (κ × α)) (k : κ) (v : α) : List (κ × α) :=
  (k, v) :: m.filter (fun e => !(e.1 == k))

/-- Delete a key of an association list. -/
def alistErase {κ α : Type} [BEq κ] (m : List (κ × α)) (k : κ) : List (κ × α) :=
  m.filter (fun e => !(e.1 == k))

/-- The closure variables of connection `w`, defaulting to the fresh
(all-undefined) state. -/
def getConn (st : ServerState) (w : Nat) : Conn :=
  (st.conns.lookup w).getD {}

/-- An optional string field of a serialized envelope: present when the
value is defined, dropped by `JSON.stringify` otherwise. -/
def optStrField (k : String) (v : Option String) : JObj :=
  match v with
  | some x => [(k, JVal.s x)]
  | none => []

/-- An optional numeric field of a serialized envelope. -/
def optNumField (k : String) (v : Option Rat) : JObj :=
  match v with
  | some x => [(k, JVal.n x)]
  | none => []

/-- An optional payload field of a serialized envelope. -/
def optPayField (k : String) (v : Option SigPayloadData) : JObj :=
  match v with
  | some p => [(k, JVal.pay (p.sdp.map (fun d => (d.sdpType, d.content))) p.candidate)]
  | none => []

/-- The `error` envelope sent from the catch branch, carrying the thrown
error's message. -/
def errorObj (m : String) : JObj :=
  [("type", JVal.s "error"), ("message", JVal.s m)]

/-- The `joined` acknowledgment envelope sent back to a joining client. -/
def joinedObj (room : Option String) : JObj :=
  [("type", JVal.s "joined")] ++ optStrField "room" room

/-- The relayed `signal` envelope: type, the sender's display name as
`from`, and the sender's payload forwarded verbatim. -/
def signalRelayObj (u : Option String) (p : Option SigPayloadData) : JObj :=
  [("type", JVal.s "signal")] ++ optStrField "from" u ++ optPayField "payload" p

/-- The relayed `yt-sync` envelope: type, action, time and videoId
forwarded from the inbound message, each dropped when absent. -/
def ytSyncRelayObj (d : InMsg) : JObj :=
  [("type", JVal.s "yt-sync")] ++ optStrField "action" d.action
    ++ optNumField "time" d.time ++ optStrField "videoId" d.videoId

/-- The message of the TypeError thrown by `Buffer.from(undefined, hex)`
when a join envelope carries no key field. -/
def bufferKeyErrMsg : String :=
  "The first argument must be of type string or an instance of Buffer, ArrayBuffer, or Array or an Array-like Object. Received undefined"

/-- The `message` event handler of `server/index.js`: parse, dispatch on
the `type` discriminant, and either register a session, relay to the
other sessions of the sender's current room, or fall through; a thrown
error is answered with an `error` envelope to the sender only.  Returns
the new server state and the list of (target connection, envelope)
deliveries performed. -/
def handleMessage (st : ServerState) (w : Nat) (raw : RawMsg) :
    ServerState × List (Nat × JObj) :=
  match raw with
  | RawMsg.malformed e => (st, [(w, errorObj e)])
  | RawMsg.msg d =>
    if d.type = some "join" then
      let c0 := getConn st w
      let c1 := { c0 with roomId := d.room, userId := d.user }
      match d.key with
      | none =>
          ({ st with conns := alistInsert st.conns w c1 }, [(w, errorObj bufferKeyErrMsg)])
      | some k =>
          let c2 := { c1 with key := some k }
          let rk := jsKey d.room
          let old := (st.rooms.lookup rk).getD []
          ({ rooms := alistInsert st.rooms rk (old ++ [{ ws := w, userId := d.user, key := k }]),
             conns := alistInsert st.conns w c2 },
           [(w, joinedObj d.room)])
    else if d.type = some "signal" then
      let c := getConn st w
      let peers := (st.rooms.lookup (jsKey c.roomId)).getD []
      (st, (peers.filter (fun p => !(p.ws == w))).map
        (fun p => (p.ws, signalRelayObj c.userId d.payload)))
    else if d.type = some "yt-sync" then
      let c := getConn st w
      let peers := (st.rooms.lookup (jsKey c.roomId)).getD []
      (st, (peers.filter (fun p => !(p.ws == w))).map
        (fun p => (p.ws, ytSyncRelayObj d)))
    else (st, [])

/-- The `close` event handler of `server/index.js`: if the connection's
current room is truthy and present, drop the connection's records from it
and delete the room when it becomes empty; the connection's closure is
discarded. -/
def handleClose (st : ServerState) (w : Nat) : ServerState :=
  let c := getConn st w
  let rk := jsKey c.roomId
  let rooms2 :=
    if optTruthy c.roomId && (st.rooms.lookup rk).isSome then
      let l := ((st.rooms.lookup rk).getD []).filter (fun p => !(p.ws == w))
      if l.isEmpty then alistErase st.rooms rk else alistInsert st.rooms rk l
    else st.rooms
  { rooms := rooms2, conns := alistErase st.conns w }

/-- One externally visible server event: a new connection, an inbound
message on a connection, or a connection close. -/
inductive SEvent where
  | connect (w : Nat)
  | message (w : Nat) (raw : RawMsg)
  | close (w : Nat)
deriving DecidableEq, Repr

/-- Process one event, returning the new state and the deliveries made. -/
def stepEv (st : ServerState) (e : SEvent) : ServerState × List (Nat × JObj) :=
  match e with
  | SEvent.connect w => ({ st with conns := alistInsert st.conns w {} }, [])
  | SEvent.message w raw => handleMessage st w raw
  | SEvent.close w => (handleClose st w, [])

/-- The empty server state at process start. -/
def initState : ServerState := { rooms := [], conns := [] }

/-- Process a list of events, accumulating all deliveries in order. -/
def runEvs (st : ServerState) : List SEvent → ServerState × List (Nat × JObj)
  | [] => (st, [])
  | e :: rest =>
      let r := stepEv st e
      let r2 := runEvs r.1 rest
      (r2.1, r.2 ++ r2.2)

/-- The deliveries produced by one inbound message. -/
def msgOuts (st : ServerState) (w : Nat) (raw : RawMsg) : List (Nat × JObj) :=
  (handleMessage st w raw).2

/-- The server state after one inbound message. -/
def msgState (st : ServerState) (w : Nat) (raw : RawMsg) : ServerState :=
  (handleMessage st w raw).1

/-- The session records of the sender's current room, as the relay
branches read them (`rooms[roomId] or []`). -/
def roomPeers (st : ServerState) (w : Nat) : List SessionRec :=
  (st.rooms.lookup (jsKey (getConn st w).roomId)).getD []

/-- Whether connection `w` has a session record registered in room `r`. -/
def registered (st : ServerState) (w : Nat) (r : String) : Bool :=
  ((st.rooms.lookup r).getD []).any (fun p => p.ws == w)

/-- Whether an event is a join message sent by connection `w`. -/
def isJoinBy (w : Nat) : SEvent → Bool
  | SEvent.message w2 (RawMsg.msg d) => w2 == w && d.type == some "join"
  | _ => false

/-- The state of the client's RTCPeerConnection as far as the claims
observe it: its local and remote session descriptions. -/
structure PCState where
  localDesc : Option Sdp := none
  remoteDesc : Option Sdp := none
deriving DecidableEq, Repr

/-- The observable state of the external YouTube player: whether it is
playing, the current playback time and the loaded video identifier. -/
structure PlayerState where
  playing : Bool := false
  time : Rat := 0
  videoId : String := ""
deriving DecidableEq, Repr

/-- Modelled from the spec: the external player's `playVideo` transport
operation puts the player in the playing state. -/
def playVideo (p : PlayerState) : PlayerState := { p with playing := true }

/-- Modelled from the spec: the external player's `pauseVideo` transport
operation puts the player in the paused state. -/
def pauseVideo (p : PlayerState) : PlayerState := { p with playing := false }

/-- Modelled from the spec: the external player's `seekTo` operation moves
the playback position to the given time. -/
def seekTo (p : PlayerState) (t : Rat) : PlayerState := { p with time := t }

/-- Modelled from the spec: the external player's `loadVideoById`
operation loads the given video and starts it from the beginning. -/
def loadVideoById (p : PlayerState) (v : String) : PlayerState :=
  { p with videoId := v, time := 0, playing := true }

/-- The client-side React state and refs that the handlers of `App.tsx`
read and write: room code and display name, socket readiness and
presence, host flag, the sync-disable developer toggle, the surfaced
error banner, the peer connection and the YouTube player. -/
structure ClientState where
  room : String := ""
  username : String := ""
  wsReady : Bool := false
  wsOpen : Bool := false
  isHost : Bool := false
  disableSync : Bool := false
  error : Option String := none
  pc : Option PCState := none
  ytPlayer : Option PlayerState := none
deriving DecidableEq, Repr

/-- One observable effect of a client handler, in execution order: calls
on the negotiation object and sends on the WebSocket. -/
inductive CAct where
  | setRemote (d : Sdp)
  | createAns (d : Sdp)
  | setLocal (d : Sdp)
  | createOffer (d : Sdp)
  | sendMsg (o : JObj)
  | addIce (c : String)
deriving DecidableEq, Repr

/-- Modelled from the spec: the negotiation object's `createAnswer`
synthesizes an answer description matching the current remote offer. -/
def mkAnswer (offer : Sdp) : Sdp := { sdpType := "answer", content := offer.content }

/-- Modelled from the spec: the negotiation object's `createOffer`
synthesizes an offer describing the local session. -/
def mkOffer : Sdp := { sdpType := "offer", content := "local-session" }

/-- The `signal` envelope a client sends, as serialized by
`JSON.stringify` in `App.tsx` (room and user are plain strings of React
state, so they are always present). -/
def signalSendObj (room user : String) (p : SigPayloadData) : JObj :=
  [("type", JVal.s "signal"), ("room", JVal.s room), ("user", JVal.s user)]
    ++ optPayField "payload" (some p)

/-- The `yt-sync` envelope a client sends, as serialized by
`JSON.stringify` in `App.tsx`. -/
def ytSyncSendObj (room action : String) (t : Option Rat) (vid : Option String) : JObj :=
  [("type", JVal.s "yt-sync"), ("room", JVal.s room), ("action", JVal.s action)]
    ++ optNumField "time" t ++ optStrField "videoId" vid

/-- A relayed envelope as the client parses it in `onmessage`: the fields
the handler reads. -/
structure CliMsg where
  type : Option String := none
  payload : Option SigPayloadData := none
  action : Option String := none
  time : Option Rat := none
  videoId : Option String := none
deriving DecidableEq, Repr

/-- The `onmessage` handler of `App.tsx`: on a `signal` envelope with an
active peer connection, apply an SDP as the remote description and answer
it when it is an offer, or add an ICE candidate; on a `yt-sync` envelope
with a ready player and sync enabled, apply the action to the player.
Accessing a field of an absent `payload` throws, which the surrounding
catch turns into a surfaced error.  Returns the new client state and the
effect trace in execution order. -/
def clientOnMessage (s : ClientState) (d : CliMsg) : ClientState × List CAct :=
  if d.type = some "signal" then
    match s.pc with
    | some pcs =>
      match d.payload with
      | none => ({ s with error := some "Error handling server message." }, [])
      | some pl =>
        match pl.sdp with
        | some desc =>
          let pcs2 := { pcs with remoteDesc := some desc }
          if desc.sdpType = "offer" then
            let ans := mkAnswer desc
            ({ s with pc := some { pcs2 with localDesc := some ans } },
             [CAct.setRemote desc, CAct.createAns ans, CAct.setLocal ans,
              CAct.sendMsg (signalSendObj s.room s.username { sdp := some ans })])
          else
            ({ s with pc := some pcs2 }, [CAct.setRemote desc])
        | none =>
          match pl.candidate with
          | some cand => ({ s with pc := some pcs }, [CAct.addIce cand])
          | none => (s, [])
    | none => (s, [])
  else if d.type = some "yt-sync" then
    match s.ytPlayer with
    | some p =>
      if s.disableSync then (s, [])
      else
        let p2 := if d.action = some "play" then playVideo p else p
        let p3 := if d.action = some "pause" then pauseVideo p2 else p2
        let p4 := if d.action = some "seek" then seekTo p3 (d.time.getD 0) else p3
        let p5 := if d.action = some "load" then loadVideoById p4 (d.videoId.getD "") else p4
        ({ s with ytPlayer := some p5 }, [])
    | none => (s, [])
  else (s, [])

/-- The `startCall` handler of `App.tsx`: refuse (with a surfaced error)
when the socket is not ready; otherwise become the host and, when the
peer connection and socket exist, create an offer, set it as the local
description and send it as a `signal` envelope.  Nothing in the handler
consults whether a prior offer is still unanswered. -/
def startCall (s : ClientState) : ClientState × List CAct :=
  if !s.wsReady then
    ({ s with error := some "WebSocket not ready, cannot start call" }, [])
  else
    let s2 := { s with isHost := true }
    match s2.pc, s2.wsOpen with
    | some pcs, true =>
        let offer := mkOffer
        ({ s2 with pc := some { pcs with localDesc := some offer } },
         [CAct.createOffer offer, CAct.setLocal offer,
          CAct.sendMsg (signalSendObj s2.room s2.username { sdp := some offer })])
    | _, _ => (s2, [])

/-- The callback of the periodic sync interval in `App.tsx`: when the
player and socket exist, the client is the host and sync is enabled, read
the player's current time and send a corrective seek envelope.  The
player's playing/paused state is not consulted. -/
def ytTick (s : ClientState) : List CAct :=
  match s.ytPlayer with
  | some p =>
      if s.wsOpen && s.isHost && !s.disableSync then
        [CAct.sendMsg (ytSyncSendObj s.room "seek" (some p.time) none)]
      else []
  | none => []

/-- The interval period, in milliseconds, of the periodic sync timer
(`setInterval(..., 5000)`). -/
def syncIntervalMs : Nat := 5000

/-- Whether a client effect sends a `signal` envelope whose payload
carries an offer description. -/
def isOfferSend : CAct → Bool
  | CAct.sendMsg o =>
      match o.lookup "payload" with
      | some (JVal.pay (some (t, _)) _) => t == "offer"
      | _ => false
  | _ => false

/-- Erase the key material of a session record, keeping its presence. -/
def scrubSession (p : SessionRec) : SessionRec := { p with key := "" }

/-- Erase the key material of a connection's closure, keeping whether a
key has been bound. -/
def scrubConn (c : Conn) : Conn := { c with key := c.key.map (fun _ => "") }

/-- Erase all stored key material of a server state. -/
def scrubState (st : ServerState) : ServerState :=
  { rooms := st.rooms.map (fun e => (e.1, e.2.map scrubSession)),
    conns := st.conns.map (fun e => (e.1, scrubConn e.2)) }

/-- Erase the key field's value from an inbound envelope, keeping its
presence. -/
def scrubMsg (d : InMsg) : InMsg := { d with key := d.key.map (fun _ => "") }

/-- Erase key material from a raw inbound message. -/
def scrubRaw : RawMsg → RawMsg
  | RawMsg.malformed e => RawMsg.malformed e
  | RawMsg.msg d => RawMsg.msg (scrubMsg d)

/-- Erase key material from a server event: two event traces that agree
after scrubbing differ only in the key values they declare. -/
def scrubEv : SEvent → SEvent
  | SEvent.connect w => SEvent.connect w
  | SEvent.message w raw => SEvent.message w (scrubRaw raw)
  | SEvent.close w => SEvent.close w

/-- A fixture session of connection 0 in room ABCD. -/
def sesA : SessionRec := { ws := 0, userId := some "alice", key := "aa" }

/-- A fixture session of connection 1 in room ABCD. -/
def sesB : SessionRec := { ws := 1, userId := some "bob", key := "bb" }

/-- A fixture server state with two sessions joined in room ABCD. -/
def stW : ServerState :=
  { rooms := [("ABCD", [sesA, sesB])],
    conns := [(0, { roomId := some "ABCD", userId := some "alice", key := some "aa" }),
              (1, { roomId := some "ABCD", userId := some "bob", key := some "bb" })] }

/-- A fixture server state whose room ABCD holds only the session of
connection 0. -/
def stW1 : ServerState :=
  { rooms := [("ABCD", [sesA])],
    conns := [(0, { roomId := some "ABCD", userId := some "alice", key := some "aa" })] }

/-- A fixture inbound signal envelope carrying an SDP offer. -/
def dSig : InMsg :=
  { type := some "signal", room := some "ABCD", user := some "alice",
    payload := some { sdp := some { sdpType := "offer", content := "sdp-offer-a" } } }

/-- A fixture inbound yt-sync envelope carrying a seek. -/
def dYt : InMsg :=
  { type := some "yt-sync", room := some "ABCD",
    action := some "seek", time := some 42, videoId := some "dQw4w9WgXcQ" }

/-- A fixture well-formed envelope whose type discriminant is unknown. -/
def dBogus : InMsg := { type := some "bogus" }

/-- A fixture join envelope. -/
def joinMsg (r u k : String) : InMsg :=
  { type := some "join", room := some r, user := some u, key := some k }

/-- A fixture event trace in which connection 0 joins room A, then joins
room B on the same connection while 1 stays in room A. -/
def evsDouble : List SEvent :=
  [SEvent.connect 0, SEvent.connect 1,
   SEvent.message 0 (RawMsg.msg (joinMsg "A" "alice" "aa")),
   SEvent.message 1 (RawMsg.msg (joinMsg "A" "bob" "bb")),
   SEvent.message 0 (RawMsg.msg (joinMsg "B" "alice" "aa"))]

/-- A fixture event trace producing a one-session room. -/
def evsW : List SEvent :=
  [SEvent.connect 0, SEvent.message 0 (RawMsg.msg (joinMsg "ABCD" "alice" "aa"))]

/-- A fixture event trace identical to `evsW` except that the declared
key material differs. -/
def evsW2 : List SEvent :=
  [SEvent.connect 0, SEvent.message 0 (RawMsg.msg (joinMsg "ABCD" "alice" "bb"))]

/-- A fixture joined client state with a ready socket and a fresh peer
connection. -/
def csReady : ClientState :=
  { room := "ABCD", username := "alice", wsReady := true, wsOpen := true,
    pc := some {}, ytPlayer := none }

/-- A fixture hosting client state whose player is paused. -/
def csHostPaused : ClientState :=
  { csReady with
    isHost := true,
    ytPlayer := some { playing := false, time := 7, videoId := "dQw4w9WgXcQ" } }

/-- A fixture viewer client state whose player is already playing. -/
def csPlaying : ClientState :=
  { csReady with
    ytPlayer := some { playing := true, time := 7, videoId := "dQw4w9WgXcQ" } }

/-- A relayed yt-sync play envelope as the client parses it. -/
def playMsg : CliMsg := { type := some "yt-sync", action := some "play" }

/-- A relayed signal envelope carrying an SDP offer, as the client parses
it. -/
def offerMsg : CliMsg :=
  { type := some "signal",
    payload := some { sdp := some { sdpType := "offer", content := "sdp-offer-a" } } }

/-!
Helper lemmas about the association-list operations of the registry.
-/

theorem lookup_filter_ne {κ α : Type} [BEq κ] [LawfulBEq κ] {m : List (κ × α)} {k r : κ}
    (h : r ≠ k) :
    (m.filter (fun e => !(e.1 == k))).lookup r = m.lookup r := by
  induction m with
  | nil => rfl
  | cons e rest ih =>
      rcases e with ⟨a, v⟩
      rw [List.filter_cons]
      by_cases hak : a = k
      · subst hak
        have hra : (r == a) = false := beq_eq_false_iff_ne.mpr h
        simp only [beq_self_eq_true, Bool.not_true, Bool.false_eq_true, ite_false]
        rw [ih]
        simp [List.lookup, hra]
      · have hank : (!(a == k)) = true := by simp [hak]
        rw [hank]
        simp only [if_true]
        cases hra : r == a <;> simp [List.lookup, hra, ih]

theorem lookup_alistInsert_self {κ α : Type} [BEq κ] [LawfulBEq κ]
    (m : List (κ × α)) (k : κ) (v : α) :
    (alistInsert m k v).lookup k = some v := by
  simp [alistInsert, List.lookup]

theorem lookup_alistInsert_ne {κ α : Type} [BEq κ] [LawfulBEq κ]
    (m : List (κ × α)) (k : κ) (v : α) {r : κ} (h : r ≠ k) :
    (alistInsert m k v).lookup r = m.lookup r := by
  have hrk : (r == k) = false := beq_eq_false_iff_ne.mpr h
  simp [alistInsert, List.lookup, hrk, lookup_filter_ne h]

theorem lookup_alistErase_self {κ α : Type} [BEq κ] [LawfulBEq κ]
    (m : List (κ × α)) (k : κ) :
    (alistErase m k).lookup k = none := by
  induction m with
  | nil => rfl
  | cons e rest ih =>
      rcases e with ⟨a, v⟩
      rw [alistErase, List.filter_cons]
      by_cases hak : a = k
      · subst hak
        simpa [alistErase] using ih
      · have hank : (!(a == k)) = true := by simp [hak]
        rw [hank]
        have hka : (k == a) = false := beq_eq_false_iff_ne.mpr (Ne.symm hak)
        simpa [List.lookup, hka, alistErase] using ih

theorem lookup_alistErase_ne {κ α : Type} [BEq κ] [LawfulBEq κ]
    (m : List (κ × α)) (k : κ) {r : κ} (h : r ≠ k) :
    (alistErase m k).lookup r = m.lookup r := by
  simpa [alistErase] using lookup_filter_ne (m := m) h

/-- C1: a `signal` or `yt-sync` envelope sent by a connection whose
current room holds the sessions `roomPeers st w` is relayed to exactly
the other sessions of that room: no delivery targets the sender, the
delivery targets are precisely the other session records in registration
order (so each other session receives exactly one copy, counted per
record), and the relay leaves the server state unchanged. -/
theorem relay_exactly_once_not_sender (st : ServerState) (w : Nat) (d : InMsg)
    (hty : d.type = some "signal" ∨ d.type = some "yt-sync") :
    (∀ o ∈ msgOuts st w (RawMsg.msg d), o.1 ≠ w) ∧
    (msgOuts st w (RawMsg.msg d)).map Prod.fst
      = ((roomPeers st w).filter (fun p => !(p.ws == w))).map SessionRec.ws ∧
    (∀ v, v ≠ w → (msgOuts st w (RawMsg.msg d)).countP (fun o => o.1 == v)
      = (roomPeers st w).countP (fun p => p.ws == v)) ∧
    msgState st w (RawMsg.msg d) = st := by
  have key : ∃ env, msgOuts st w (RawMsg.msg d)
      = ((roomPeers st w).filter (fun p => !(p.ws == w))).map (fun p => (p.ws, env))
      ∧ msgState st w (RawMsg.msg d) = st := by
    rcases hty with h | h
    · exact ⟨signalRelayObj (getConn st w).userId d.payload,
        by simp [msgOuts, handleMessage, h, roomPeers],
        by simp [msgState, handleMessage, h]⟩
    · exact ⟨ytSyncRelayObj d,
        by simp [msgOuts, handleMessage, h, roomPeers],
        by simp [msgState, handleMessage, h]⟩
  obtain ⟨env, houts, hst⟩ := key
  refine ⟨?_, ?_, ?_, hst⟩
  · intro o ho
    rw [houts] at ho
    simp only [List.mem_map, List.mem_filter] at ho
    obtain ⟨p, ⟨_, hne⟩, rfl⟩ := ho
    simpa using hne
  · rw [houts, List.map_map]
    rfl
  · intro v hv
    rw [houts, List.countP_map, List.countP_filter]
    refine List.countP_congr ?_
    intro p _
    constructor
    · intro hp
      simp only [Function.comp] at hp
      exact (Bool.and_eq_true ..).mp hp |>.1
    · intro hp
      have hpv : p.ws = v := by simpa using hp
      have : (!(p.ws == w)) = true := by
        simp [hpv, hv]
      simp [Function.comp, hp, this]

/-- Witness for C1: in the concrete two-session room ABCD, a signal from
connection 0 is relayed to session 1 only, never back to 0, and the
registry is untouched. -/
theorem relay_exactly_once_not_sender_witness :
    (∀ o ∈ msgOuts stW 0 (RawMsg.msg dSig), o.1 ≠ 0) ∧
    (msgOuts stW 0 (RawMsg.msg dSig)).map Prod.fst
      = ((roomPeers stW 0).filter (fun p => !(p.ws == 0))).map SessionRec.ws ∧
    (∀ v, v ≠ 0 → (msgOuts stW 0 (RawMsg.msg dSig)).countP (fun o => o.1 == v)
      = (roomPeers stW 0).countP (fun p => p.ws == v)) ∧
    msgState stW 0 (RawMsg.msg dSig) = stW :=
  relay_exactly_once_not_sender stW 0 dSig (Or.inl rfl)

theorem mem_alistInsert {κ α : Type} [BEq κ] {m : List (κ × α)} {k r : κ} {v l : α}
    (h : (r, l) ∈ alistInsert m k v) : (r = k ∧ l = v) ∨ (r, l) ∈ m := by
  rw [alistInsert, List.mem_cons] at h
  rcases h with h1 | h2
  · left
    exact ⟨congrArg Prod.fst h1, congrArg Prod.snd h1⟩
  · right
    exact (List.mem_filter.mp h2).1

theorem mem_alistErase {κ α : Type} [BEq κ] {m : List (κ × α)} {k r : κ} {l : α}
    (h : (r, l) ∈ alistErase m k) : (r, l) ∈ m :=
  (List.mem_filter.mp h).1

theorem rooms_nonempty_step (st : ServerState) (e : SEvent)
    (h : ∀ r l, (r, l) ∈ st.rooms → l ≠ []) :
    ∀ r l, (r, l) ∈ (stepEv st e).1.rooms → l ≠ [] := by
  intro r l hm
  cases e with
  | connect w => exact h r l hm
  | close w =>
      simp only [stepEv, handleClose] at hm
      split at hm
      · split at hm
        · exact h r l (mem_alistErase hm)
        · rename_i hne
          rcases mem_alistInsert hm with ⟨rfl, rfl⟩ | hold
          · intro habs
            rw [habs] at hne
            simp at hne
          · exact h r l hold
      · exact h r l hm
  | message w raw =>
      cases raw with
      | malformed e => exact h r l hm
      | msg d =>
          simp only [stepEv, handleMessage] at hm
          split at hm
          · cases hk : d.key with
            | none => rw [hk] at hm; exact h r l hm
            | some k =>
                rw [hk] at hm
                simp only at hm
                rcases mem_alistInsert hm with ⟨rfl, rfl⟩ | hold
                · simp
                · exact h r l hold
          · split at hm
            · exact h r l hm
            · split at hm
              · exact h r l hm
              · exact h r l hm

theorem rooms_nonempty_run (st : ServerState) (evs : List SEvent)
    (h : ∀ r l, (r, l) ∈ st.rooms → l ≠ []) :
    ∀ r l, (r, l) ∈ (runEvs st evs).1.rooms → l ≠ [] := by
  induction evs generalizing st with
  | nil => exact h
  | cons e rest ih =>
      intro r l hm
      rw [runEvs] at hm
      exact ih _ (rooms_nonempty_step st e h) r l hm

/-- C2: after any sequence of server events, every room present in the
registry has a non-empty session list; a join carrying key material
leaves the named room present and non-empty (the room is created by the
first join naming it); and closing a connection whose current room holds
no other session deletes that room from the registry. -/
theorem room_present_iff_nonempty (evs : List SEvent) (st : ServerState) (w : Nat)
    (d : InMsg) (k : String) (l : List SessionRec)
    (hj : d.type = some "join") (hk : d.key = some k)
    (hcur : optTruthy (getConn st w).roomId = true)
    (hl : st.rooms.lookup (jsKey (getConn st w).roomId) = some l)
    (hlast : l.filter (fun p => !(p.ws == w)) = []) :
    (∀ r l2, (r, l2) ∈ (runEvs initState evs).1.rooms → l2 ≠ []) ∧
    (∃ l3, (msgState st w (RawMsg.msg d)).rooms.lookup (jsKey d.room) = some l3 ∧ l3 ≠ []) ∧
    (handleClose st w).rooms.lookup (jsKey (getConn st w).roomId) = none := by
  refine ⟨rooms_nonempty_run initState evs (by simp [initState]), ?_, ?_⟩
  · refine ⟨((st.rooms.lookup (jsKey d.room)).getD [])
      ++ [{ ws := w, userId := d.user, key := k }], ?_, by simp⟩
    simp only [msgState, handleMessage, hj, hk, if_pos]
    exact lookup_alistInsert_self ..
  · simp only [handleClose]
    rw [hl]
    simp only [Option.isSome_some, Bool.and_true, hcur, if_true, Option.getD_some, hlast]
    simp only [List.isEmpty_nil, if_true]
    exact lookup_alistErase_self ..

/-- Witness for C2: a concrete one-join trace yields only non-empty
rooms; joining room ABCD creates it; closing the only member of room
ABCD deletes it. -/
theorem room_present_iff_nonempty_witness :
    (∀ r l2, (r, l2) ∈ (runEvs initState evsW).1.rooms → l2 ≠ []) ∧
    (∃ l3, (msgState stW1 0 (RawMsg.msg (joinMsg "ABCD" "alice" "aa"))).rooms.lookup
        (jsKey (joinMsg "ABCD" "alice" "aa").room) = some l3 ∧ l3 ≠ []) ∧
    (handleClose stW1 0).rooms.lookup (jsKey (getConn stW1 0).roomId) = none :=
  room_present_iff_nonempty evsW stW1 0 (joinMsg "ABCD" "alice" "aa") "aa" [sesA]
    rfl rfl rfl (by decide) (by decide)

/-- C3 counterexample: a well-formed JSON envelope whose type
discriminant is unknown (`dBogus`, type "bogus") produces no reply at
all, contradicting the claim that the server answers it with exactly one
`error` envelope. -/
theorem unknown_type_no_error_reply :
    msgOuts stW 0 (RawMsg.msg dBogus) = [] := rfl

/-- C3 amended: malformed JSON (a parse failure) is answered with exactly
one `error` envelope carrying the thrown error's message, sent to the
sender only, with the server state (hence every other session) untouched
and the connection left open; a well-formed envelope whose type
discriminant is missing or not one of join, signal or yt-sync is silently
ignored: no reply, no state change. -/
theorem malformed_json_error_reply (st : ServerState) (w : Nat) (e : String) :
    handleMessage st w (RawMsg.malformed e) = (st, [(w, errorObj e)]) ∧
    (∀ d : InMsg, d.type ≠ some "join" → d.type ≠ some "signal" → d.type ≠ some "yt-sync" →
      handleMessage st w (RawMsg.msg d) = (st, [])) := by
  refine ⟨rfl, ?_⟩
  intro d h1 h2 h3
  simp [handleMessage, h1, h2, h3]

/-- Witness for the amended C3 at a concrete state and messages. -/
theorem malformed_json_error_reply_witness :
    handleMessage stW 0 (RawMsg.malformed "Unexpected token")
      = (stW, [(0, errorObj "Unexpected token")]) ∧
    handleMessage stW 0 (RawMsg.msg dBogus) = (stW, []) :=
  ⟨(malformed_json_error_reply stW 0 "Unexpected token").1,
   (malformed_json_error_reply stW 0 "Unexpected token").2 dBogus
     (by decide) (by decide) (by decide)⟩

/-- C4 counterexample: from a joined client state with a ready socket,
triggering `startCall` sends an offer, and triggering it again at the
resulting state (with the first offer still unanswered) sends a second
offer: nothing suppresses duplicate offers in flight. -/
theorem duplicate_offers_in_flight :
    (startCall csReady).2.countP isOfferSend = 1 ∧
    (startCall (startCall csReady).1).2.countP isOfferSend = 1 := by decide

/-- C4 amended: every `startCall` trigger with a ready socket and an
existing peer connection sends exactly one offer, whatever the prior
negotiation state (so a trigger during an unanswered offer sends a
duplicate); a trigger with the socket not ready sends nothing. -/
theorem startCall_offer_per_trigger (s : ClientState)
    (hr : s.wsReady = true) (hp : s.pc.isSome = true) (hw : s.wsOpen = true) :
    (startCall s).2.countP isOfferSend = 1 ∧
    (∀ t : ClientState, t.wsReady = false → (startCall t).2 = []) := by
  constructor
  · rcases hpc : s.pc with _ | pcs
    · rw [hpc] at hp
      simp at hp
    · simp [startCall, hr, hw, hpc, isOfferSend, signalSendObj, optPayField,
        mkOffer, List.lookup, List.countP_cons]
  · intro t ht
    simp [startCall, ht]

/-- Witness for the amended C4 at concrete ready and not-ready states. -/
theorem startCall_offer_per_trigger_witness :
    (startCall csReady).2.countP isOfferSend = 1 ∧
    (startCall { csReady with wsReady := false }).2 = [] :=
  ⟨(startCall_offer_per_trigger csReady rfl rfl rfl).1,
   (startCall_offer_per_trigger csReady rfl rfl rfl).2
     { csReady with wsReady := false } rfl⟩

/-- C5 counterexample: a hosting client whose player is paused still
emits a corrective seek on the interval tick, contradicting the claim
that the corrective seek is emitted only while playback is playing. -/
theorem seek_emitted_while_paused :
    csHostPaused.ytPlayer = some { playing := false, time := 7, videoId := "dQw4w9WgXcQ" } ∧
    ytTick csHostPaused = [CAct.sendMsg (ytSyncSendObj "ABCD" "seek" (some 7) none)] :=
  ⟨rfl, rfl⟩

/-- C5 amended: on every tick of the fixed 5000 ms interval, a hosting
client with a player and an open socket and sync enabled emits exactly
one corrective seek carrying the player's current time, regardless of
the player's playing or paused state; a non-host emits nothing. -/
theorem periodic_seek_any_player_state (s : ClientState) (p : PlayerState)
    (hp : s.ytPlayer = some p) (hw : s.wsOpen = true) (hh : s.isHost = true)
    (hd : s.disableSync = false) :
    ytTick s = [CAct.sendMsg (ytSyncSendObj s.room "seek" (some p.time) none)] ∧
    syncIntervalMs = 5000 ∧
    (∀ t : ClientState, t.isHost = false → ytTick t = []) := by
  refine ⟨?_, rfl, ?_⟩
  · simp [ytTick, hp, hw, hh, hd]
  · intro t ht
    rcases htp : t.ytPlayer with _ | p2
    · simp [ytTick, htp]
    · simp [ytTick, htp, ht]

/-- Witness for the amended C5 at the concrete paused hosting state. -/
theorem periodic_seek_any_player_state_witness :
    ytTick csHostPaused = [CAct.sendMsg (ytSyncSendObj csHostPaused.room "seek"
      (some ({ playing := false, time := 7, videoId := "dQw4w9WgXcQ" } : PlayerState).time) none)] ∧
    syncIntervalMs = 5000 ∧
    (∀ t : ClientState, t.isHost = false → ytTick t = []) :=
  periodic_seek_any_player_state csHostPaused
    { playing := false, time := 7, videoId := "dQw4w9WgXcQ" } rfl rfl rfl rfl

/-- C7: a client with an active negotiation object receiving a relayed
`signal` envelope whose payload carries an offer sets the offer as the
remote description, synthesizes an answer, sets the answer as the local
description, and sends the answer back as a `signal` envelope, in exactly
that order. -/
theorem responder_answers_offer (s : ClientState) (pcs : PCState) (pl : SigPayloadData)
    (offer : Sdp) (d : CliMsg)
    (hpc : s.pc = some pcs) (hty : d.type = some "signal") (hpl : d.payload = some pl)
    (hsdp : pl.sdp = some offer) (hoff : offer.sdpType = "offer") :
    clientOnMessage s d =
      ({ s with pc := some { pcs with remoteDesc := some offer, localDesc := some (mkAnswer offer) } },
       [CAct.setRemote offer, CAct.createAns (mkAnswer offer), CAct.setLocal (mkAnswer offer),
        CAct.sendMsg (signalSendObj s.room s.username { sdp := some (mkAnswer offer) })]) := by
  simp [clientOnMessage, hty, hpc, hpl, hsdp, hoff]

/-- Witness for C7 at a concrete fresh responder receiving a concrete
offer. -/
theorem responder_answers_offer_witness :
    clientOnMessage csReady offerMsg =
      ({ csReady with pc := some ⟨some ⟨"answer", "sdp-offer-a"⟩, some ⟨"offer", "sdp-offer-a"⟩⟩ },
       [CAct.setRemote ⟨"offer", "sdp-offer-a"⟩,
        CAct.createAns ⟨"answer", "sdp-offer-a"⟩,
        CAct.setLocal ⟨"answer", "sdp-offer-a"⟩,
        CAct.sendMsg (signalSendObj "ABCD" "alice" { sdp := some ⟨"answer", "sdp-offer-a"⟩ })]) :=
  responder_answers_offer csReady {}
    { sdp := some ⟨"offer", "sdp-offer-a"⟩ }
    ⟨"offer", "sdp-offer-a"⟩ offerMsg rfl rfl rfl rfl rfl

/-- C9: applying the viewer's yt-sync handler with action `play` twice in
a row yields the same client state as applying it once, and applying it
to an already-playing player changes nothing. -/
theorem viewer_play_idempotent (s : ClientState) :
    (clientOnMessage (clientOnMessage s playMsg).1 playMsg).1 = (clientOnMessage s playMsg).1 ∧
    (∀ p, s.ytPlayer = some p → p.playing = true → (clientOnMessage s playMsg).1 = s) := by
  constructor
  · rcases hp : s.ytPlayer with _ | p
    · simp [clientOnMessage, playMsg, hp]
    · by_cases hd : s.disableSync
      · simp [clientOnMessage, playMsg, hp, hd]
      · simp [clientOnMessage, playMsg, hp, hd, playVideo]
  · intro p hp hplay
    by_cases hd : s.disableSync
    · simp [clientOnMessage, playMsg, hp, hd]
    · have hd2 : s.disableSync = false := by simpa using hd
      have hpv : playVideo p = p := by
        rcases p with ⟨pg, t, v⟩
        simp at hplay
        subst hplay
        simp [playVideo]
      calc (clientOnMessage s playMsg).1
          = { s with ytPlayer := some (playVideo p) } := by
            simp [clientOnMessage, playMsg, hp, hd2]
        _ = { s with ytPlayer := some p } := by rw [hpv]
        _ = s := by rw [← hp]

/-- Witness for C9 at a concrete already-playing viewer state. -/
theorem viewer_play_idempotent_witness :
    (clientOnMessage (clientOnMessage csPlaying playMsg).1 playMsg).1
      = (clientOnMessage csPlaying playMsg).1 ∧
    (clientOnMessage csPlaying playMsg).1 = csPlaying :=
  ⟨(viewer_play_idempotent csPlaying).1,
   (viewer_play_idempotent csPlaying).2
     { playing := true, time := 7, videoId := "dQw4w9WgXcQ" } rfl rfl⟩

/-- C10: every relayed `yt-sync` envelope is exactly the object built
from type, action, time and videoId; it has no room field and no sender
identity (`from`/`user`), every field key is one of the four, and the
action, time and videoId values are forwarded unconditionally from the
inbound message (absent in the output exactly when absent inbound),
whatever the action is. -/
theorem ytsync_relay_fields (st : ServerState) (w : Nat) (d : InMsg)
    (hty : d.type = some "yt-sync") :
    ∀ o ∈ msgOuts st w (RawMsg.msg d),
      o.2 = ytSyncRelayObj d ∧
      o.2.lookup "room" = none ∧ o.2.lookup "from" = none ∧ o.2.lookup "user" = none ∧
      (∀ kv ∈ o.2, kv.1 = "type" ∨ kv.1 = "action" ∨ kv.1 = "time" ∨ kv.1 = "videoId") ∧
      o.2.lookup "action" = d.action.map JVal.s ∧
      o.2.lookup "time" = d.time.map JVal.n ∧
      o.2.lookup "videoId" = d.videoId.map JVal.s := by
  intro o ho
  have h2 : o.2 = ytSyncRelayObj d := by
    simp [msgOuts, handleMessage, hty, List.mem_map, List.mem_filter] at ho
    rcases ho with ⟨p, _, rfl⟩
    rfl
  refine ⟨h2, ?_⟩
  rw [h2]
  rcases ha : d.action with _ | a <;> rcases htm : d.time with _ | t <;>
    rcases hv : d.videoId with _ | v <;>
    simp [ytSyncRelayObj, optStrField, optNumField, ha, htm, hv, List.lookup]

/-- Witness for C10 at the concrete yt-sync relay delivered to session 1
of room ABCD. -/
theorem ytsync_relay_fields_witness :
    ((1, ytSyncRelayObj dYt) : Nat × JObj).2 = ytSyncRelayObj dYt ∧
    ((1, ytSyncRelayObj dYt) : Nat × JObj).2.lookup "room" = none ∧
    ((1, ytSyncRelayObj dYt) : Nat × JObj).2.lookup "from" = none ∧
    ((1, ytSyncRelayObj dYt) : Nat × JObj).2.lookup "user" = none ∧
    (∀ kv ∈ ((1, ytSyncRelayObj dYt) : Nat × JObj).2,
      kv.1 = "type" ∨ kv.1 = "action" ∨ kv.1 = "time" ∨ kv.1 = "videoId") ∧
    ((1, ytSyncRelayObj dYt) : Nat × JObj).2.lookup "action" = dYt.action.map JVal.s ∧
    ((1, ytSyncRelayObj dYt) : Nat × JObj).2.lookup "time" = dYt.time.map JVal.n ∧
    ((1, ytSyncRelayObj dYt) : Nat × JObj).2.lookup "videoId" = dYt.videoId.map JVal.s :=
  ytsync_relay_fields stW 0 dYt rfl (1, ytSyncRelayObj dYt) (by decide)

theorem any_filter_ne {l : List SessionRec} {w w2 : Nat} (h : w ≠ w2) :
    ((l.filter (fun p => !(p.ws == w2))).any (fun p => p.ws == w))
      = l.any (fun p => p.ws == w) := by
  induction l with
  | nil => rfl
  | cons p rest ih =>
      rw [List.filter_cons]
      by_cases hp : p.ws = w2
      · have h1 : (!(p.ws == w2)) = false := by simp [hp]
        have h2 : (p.ws == w) = false := by
          refine beq_eq_false_iff_ne.mpr ?_
          rw [hp]
          exact Ne.symm h
        simp only [h1, Bool.false_eq_true, ite_false, List.any_cons, h2, Bool.false_or, ih]
      · have h1 : (!(p.ws == w2)) = true := by simp [hp]
        simp only [h1, if_true, List.any_cons, ih]

theorem registered_handleClose (st : ServerState) (w w2 : Nat) (r : String) (hww : w ≠ w2) :
    registered (handleClose st w2) w r = registered st w r := by
  rw [registered, registered, handleClose]
  simp only []
  split
  · rename_i hcnd
    rcases hlk : st.rooms.lookup (jsKey (getConn st w2).roomId) with _ | l0
    · rw [hlk] at hcnd
      simp at hcnd
    · simp only [Option.getD_some]
      split
      · rename_i hemp
        by_cases hr : r = jsKey (getConn st w2).roomId
        · rw [hr, lookup_alistErase_self, hlk]
          have hnil : l0.filter (fun p => !(p.ws == w2)) = [] :=
            List.isEmpty_iff.mp hemp
          have h2 := any_filter_ne (l := l0) hww
          rw [hnil] at h2
          simp only [Option.getD_none, Option.getD_some, List.any_nil]
          exact h2
        · rw [lookup_alistErase_ne _ _ hr]
      · by_cases hr : r = jsKey (getConn st w2).roomId
        · rw [hr, lookup_alistInsert_self, hlk]
          simp only [Option.getD_some]
          exact any_filter_ne hww
        · rw [lookup_alistInsert_ne _ _ _ hr]
  · rfl

theorem registered_rooms_eq {st st' : ServerState} (h : st'.rooms = st.rooms)
    (w : Nat) (r : String) :
    registered st' w r = registered st w r := by
  rw [registered, registered, h]

/-- C6 counterexample: after the trace `evsDouble`, in which connection 0
joins room A and then joins room B on the same connection, connection 0
is registered in rooms A and B at once, contradicting the claim that a
session belongs to exactly one room for its entire lifetime. -/
theorem connection_in_two_rooms :
    registered (runEvs initState evsDouble).1 0 "A" = true ∧
    registered (runEvs initState evsDouble).1 0 "B" = true := by decide

/-- C6 amended: any event that is not a close of connection `w` preserves
`w`'s registration in every room (a registration is never taken away by
other traffic), and any event that is moreover not a join sent by `w`
leaves `w`'s registration in every room exactly unchanged; only a further
join by `w` itself can extend the set of rooms in which `w` is
registered, without removing the previous ones, and only a close removes
registrations. -/
theorem room_membership_stable (st : ServerState) (w : Nat) (e : SEvent) (r : String)
    (hc : e ≠ SEvent.close w) :
    (registered st w r = true → registered (stepEv st e).1 w r = true) ∧
    (isJoinBy w e = false → registered (stepEv st e).1 w r = registered st w r) := by
  cases e with
  | connect w2 =>
      have h : registered (stepEv st (SEvent.connect w2)).1 w r = registered st w r :=
        registered_rooms_eq rfl w r
      exact ⟨fun hh => h ▸ hh, fun _ => h⟩
  | message w2 raw =>
      cases raw with
      | malformed em => exact ⟨fun h => h, fun _ => rfl⟩
      | msg d =>
          by_cases hj : d.type = some "join"
          · cases hk : d.key with
            | none =>
                have hrm : (stepEv st (SEvent.message w2 (RawMsg.msg d))).1.rooms = st.rooms := by
                  simp [stepEv, handleMessage, hj, hk]
                have h := registered_rooms_eq hrm w r
                exact ⟨fun hh => h ▸ hh, fun _ => h⟩
            | some k =>
                have hrm : (stepEv st (SEvent.message w2 (RawMsg.msg d))).1.rooms
                    = alistInsert st.rooms (jsKey d.room)
                        (((st.rooms.lookup (jsKey d.room)).getD [])
                          ++ [{ ws := w2, userId := d.user, key := k }]) := by
                  simp [stepEv, handleMessage, hj, hk]
                by_cases hr : r = jsKey d.room
                · have e1 : registered (stepEv st (SEvent.message w2 (RawMsg.msg d))).1 w r
                      = (registered st w r || (w2 == w)) := by
                    rw [registered, registered, hrm, hr, lookup_alistInsert_self]
                    simp only [Option.getD_some, List.any_append, List.any_cons, List.any_nil,
                      Bool.or_false]
                  constructor
                  · intro hh
                    rw [e1, hh]
                    rfl
                  · intro hnj
                    have hw2 : (w2 == w) = false := by
                      rw [isJoinBy] at hnj
                      have hjt : (d.type == some "join") = true := by simp [hj]
                      rw [hjt, Bool.and_true] at hnj
                      exact hnj
                    rw [e1, hw2, Bool.or_false]
                · have e1 : registered (stepEv st (SEvent.message w2 (RawMsg.msg d))).1 w r
                      = registered st w r := by
                    rw [registered, registered, hrm, lookup_alistInsert_ne _ _ _ hr]
                  exact ⟨fun hh => e1 ▸ hh, fun _ => e1⟩
          · have hst : (stepEv st (SEvent.message w2 (RawMsg.msg d))).1 = st := by
              by_cases h2 : d.type = some "signal"
              · simp [stepEv, handleMessage, hj, h2]
              · by_cases h3 : d.type = some "yt-sync" <;>
                  simp [stepEv, handleMessage, hj, h2, h3]
            rw [hst]
            exact ⟨fun h => h, fun _ => rfl⟩
  | close w2 =>
      have hww : w ≠ w2 := by
        intro habs
        exact hc (by rw [habs])
      have main : registered (stepEv st (SEvent.close w2)).1 w r = registered st w r :=
        registered_handleClose st w w2 r hww
      exact ⟨fun hh => main ▸ hh, fun _ => main⟩

/-- Witness for the amended C6: a yt-sync message from connection 1
leaves connection 0's registration in room ABCD unchanged. -/
theorem room_membership_stable_witness :
    registered (stepEv stW (SEvent.message 1 (RawMsg.msg dYt))).1 0 "ABCD"
      = registered stW 0 "ABCD" :=
  (room_membership_stable stW 0 (SEvent.message 1 (RawMsg.msg dYt)) "ABCD"
    (by decide)).2 (by decide)

theorem lookup_mapVal {κ α β : Type} [BEq κ] (f : α → β) (m : List (κ × α)) (k : κ) :
    (m.map (fun e => (e.1, f e.2))).lookup k = (m.lookup k).map f := by
  induction m with
  | nil => rfl
  | cons e rest ih =>
      rcases e with ⟨a, v⟩
      cases hka : k == a <;> simp [List.lookup, hka, ih]

theorem filter_key_mapVal {κ α β : Type} [BEq κ] (f : α → β) (m : List (κ × α)) (k : κ) :
    (m.map (fun e => (e.1, f e.2))).filter (fun e => !(e.1 == k))
      = (m.filter (fun e => !(e.1 == k))).map (fun e => (e.1, f e.2)) := by
  induction m with
  | nil => rfl
  | cons e rest ih =>
      rcases e with ⟨a, v⟩
      cases hak : a == k <;> simp [List.filter_cons, hak, ih]

theorem alistInsert_mapVal {κ α β : Type} [BEq κ] (f : α → β) (m : List (κ × α)) (k : κ) (v : α) :
    alistInsert (m.map (fun e => (e.1, f e.2))) k (f v)
      = (alistInsert m k v).map (fun e => (e.1, f e.2)) := by
  rw [alistInsert, alistInsert, filter_key_mapVal]
  rfl

theorem alistErase_mapVal {κ α β : Type} [BEq κ] (f : α → β) (m : List (κ × α)) (k : κ) :
    alistErase (m.map (fun e => (e.1, f e.2))) k
      = (alistErase m k).map (fun e => (e.1, f e.2)) := by
  rw [alistErase, alistErase, filter_key_mapVal]

theorem filter_ws_map_scrub (l : List SessionRec) (w : Nat) :
    (l.map scrubSession).filter (fun p => !(p.ws == w))
      = (l.filter (fun p => !(p.ws == w))).map scrubSession := by
  induction l with
  | nil => rfl
  | cons p rest ih =>
      cases hp : p.ws == w <;>
        simp [List.filter_cons, scrubSession, hp, ih]

theorem map_ws_map_scrub (l : List SessionRec) (g : SessionRec → Nat × JObj)
    (hg : ∀ p, g (scrubSession p) = g p) :
    (l.map scrubSession).map g = l.map g := by
  rw [List.map_map]
  refine List.map_congr_left ?_
  intro p _
  exact hg p

theorem scrub_getConn (st : ServerState) (w : Nat) :
    getConn (scrubState st) w = scrubConn (getConn st w) := by
  rw [getConn, getConn, scrubState]
  simp only []
  rw [lookup_mapVal]
  cases st.conns.lookup w <;> rfl

theorem getD_lookup_scrubRooms (st : ServerState) (rk : String) :
    ((scrubState st).rooms.lookup rk).getD []
      = ((st.rooms.lookup rk).getD []).map scrubSession := by
  rw [scrubState]
  simp only []
  rw [lookup_mapVal]
  cases st.rooms.lookup rk <;> rfl

theorem scrubMsg_type (d : InMsg) : (scrubMsg d).type = d.type := rfl

theorem scrubMsg_room (d : InMsg) : (scrubMsg d).room = d.room := rfl

theorem scrubMsg_user (d : InMsg) : (scrubMsg d).user = d.user := rfl

theorem scrubMsg_payload (d : InMsg) : (scrubMsg d).payload = d.payload := rfl

theorem scrubMsg_key (d : InMsg) : (scrubMsg d).key = d.key.map (fun _ => "") := rfl

theorem scrubConn_roomId (c : Conn) : (scrubConn c).roomId = c.roomId := rfl

theorem scrubConn_userId (c : Conn) : (scrubConn c).userId = c.userId := rfl

theorem scrub_step_connect (st : ServerState) (w : Nat) :
    stepEv (scrubState st) (scrubEv (SEvent.connect w))
      = (scrubState (stepEv st (SEvent.connect w)).1, (stepEv st (SEvent.connect w)).2) := by
  have h : alistInsert (st.conns.map (fun e => (e.1, scrubConn e.2))) w (scrubConn {})
      = (alistInsert st.conns w {}).map (fun e => (e.1, scrubConn e.2)) :=
    alistInsert_mapVal scrubConn st.conns w {}
  exact congrArg (fun cs =>
    (({ rooms := st.rooms.map (fun e => (e.1, e.2.map scrubSession)), conns := cs } : ServerState),
     ([] : List (Nat × JObj)))) h

theorem scrub_handleMessage_join_none (st : ServerState) (w : Nat) (d : InMsg)
    (hj : d.type = some "join") (hk : d.key = none) :
    handleMessage (scrubState st) w (scrubRaw (RawMsg.msg d))
      = (scrubState (handleMessage st w (RawMsg.msg d)).1,
         (handleMessage st w (RawMsg.msg d)).2) := by
  have hkk : (scrubMsg d).key = none := by
    rw [scrubMsg_key, hk]
    rfl
  rw [scrubRaw]
  simp only [handleMessage, scrubMsg_type, hj, if_true, hk, hkk, scrubMsg_room, scrubMsg_user]
  simp only [Prod.mk.injEq, and_true]
  rw [scrub_getConn]
  have h := alistInsert_mapVal scrubConn st.conns w
    { getConn st w with roomId := d.room, userId := d.user }
  exact congrArg (fun cs =>
    ({ rooms := st.rooms.map (fun e => (e.1, e.2.map scrubSession)), conns := cs } : ServerState)) h

theorem scrub_handleMessage_join_some (st : ServerState) (w : Nat) (d : InMsg) (k : String)
    (hj : d.type = some "join") (hk : d.key = some k) :
    handleMessage (scrubState st) w (scrubRaw (RawMsg.msg d))
      = (scrubState (handleMessage st w (RawMsg.msg d)).1,
         (handleMessage st w (RawMsg.msg d)).2) := by
  have hkk : (scrubMsg d).key = some "" := by
    rw [scrubMsg_key, hk]
    rfl
  rw [scrubRaw]
  simp only [handleMessage, scrubMsg_type, hj, if_true, hk, hkk, scrubMsg_room, scrubMsg_user]
  have hrooms : alistInsert ((scrubState st).rooms) (jsKey d.room)
      ((((scrubState st).rooms.lookup (jsKey d.room)).getD [])
        ++ [{ ws := w, userId := d.user, key := "" }])
      = (alistInsert st.rooms (jsKey d.room)
          (((st.rooms.lookup (jsKey d.room)).getD [])
            ++ [{ ws := w, userId := d.user, key := k }])).map
              (fun e => (e.1, e.2.map scrubSession)) := by
    rw [getD_lookup_scrubRooms]
    have h1 := alistInsert_mapVal (List.map scrubSession) st.rooms (jsKey d.room)
      (((st.rooms.lookup (jsKey d.room)).getD [])
        ++ [{ ws := w, userId := d.user, key := k }])
    rw [List.map_append] at h1
    exact h1
  have hconns : alistInsert ((scrubState st).conns) w
      ({ roomId := d.room, userId := d.user, key := some "" } : Conn)
      = (alistInsert st.conns w { roomId := d.room, userId := d.user, key := some k }).map
          (fun e => (e.1, scrubConn e.2)) :=
    alistInsert_mapVal scrubConn st.conns w
      { roomId := d.room, userId := d.user, key := some k }
  congr 1
  rw [scrubState]
  simp only []
  congr 1

theorem scrub_relay_outs (st : ServerState) (w : Nat) (env : JObj) :
    ((((scrubState st).rooms.lookup (jsKey (getConn st w).roomId)).getD []).filter
        (fun p => !(p.ws == w))).map (fun p => (p.ws, env))
      = (((st.rooms.lookup (jsKey (getConn st w).roomId)).getD []).filter
        (fun p => !(p.ws == w))).map (fun p => (p.ws, env)) := by
  rw [getD_lookup_scrubRooms, filter_ws_map_scrub, map_ws_map_scrub]
  intro p
  rfl

theorem scrub_handleClose (st : ServerState) (w : Nat) :
    handleClose (scrubState st) w = scrubState (handleClose st w) := by
  rw [handleClose, handleClose, scrub_getConn, scrubConn_roomId]
  simp only []
  rw [getD_lookup_scrubRooms, filter_ws_map_scrub]
  have hsome : ((scrubState st).rooms.lookup (jsKey (getConn st w).roomId)).isSome
      = (st.rooms.lookup (jsKey (getConn st w).roomId)).isSome := by
    rw [scrubState]
    simp only []
    rw [lookup_mapVal]
    cases st.rooms.lookup (jsKey (getConn st w).roomId) <;> rfl
  rw [hsome]
  split
  · rename_i hcnd
    have hemp : ((((st.rooms.lookup (jsKey (getConn st w).roomId)).getD []).filter
        (fun p => !(p.ws == w))).map scrubSession).isEmpty
        = (((st.rooms.lookup (jsKey (getConn st w).roomId)).getD []).filter
            (fun p => !(p.ws == w))).isEmpty := by
      cases ((st.rooms.lookup (jsKey (getConn st w).roomId)).getD []).filter
          (fun p => !(p.ws == w)) <;> rfl
    rw [hemp]
    split
    · rw [scrubState, scrubState]
      simp only []
      congr 1
      · exact alistErase_mapVal (List.map scrubSession) st.rooms (jsKey (getConn st w).roomId)
      · exact alistErase_mapVal scrubConn st.conns w
    · rw [scrubState, scrubState]
      simp only []
      congr 1
      · exact alistInsert_mapVal (List.map scrubSession) st.rooms (jsKey (getConn st w).roomId)
          (((st.rooms.lookup (jsKey (getConn st w).roomId)).getD []).filter
            (fun p => !(p.ws == w)))
      · exact alistErase_mapVal scrubConn st.conns w
  · rw [scrubState, scrubState]
    simp only []
    congr 1
    exact alistErase_mapVal scrubConn st.conns w

theorem scrub_handleMessage (st : ServerState) (w : Nat) (raw : RawMsg) :
    handleMessage (scrubState st) w (scrubRaw raw)
      = (scrubState (handleMessage st w raw).1, (handleMessage st w raw).2) := by
  cases raw with
  | malformed em => rfl
  | msg d =>
      by_cases hj : d.type = some "join"
      · cases hk : d.key with
        | none => exact scrub_handleMessage_join_none st w d hj hk
        | some k => exact scrub_handleMessage_join_some st w d k hj hk
      · by_cases h2 : d.type = some "signal"
        · rw [scrubRaw]
          simp only [handleMessage, scrubMsg_type, h2, scrubMsg_payload]
          simp only [Option.some.injEq, String.reduceEq, ite_false, if_true]
          rw [scrub_getConn, scrubConn_userId, scrubConn_roomId]
          congr 1
          exact scrub_relay_outs st w
            (signalRelayObj (getConn st w).userId d.payload)
        · by_cases h3 : d.type = some "yt-sync"
          · rw [scrubRaw]
            simp only [handleMessage, scrubMsg_type, h3]
            simp only [Option.some.injEq, String.reduceEq, ite_false, if_true]
            have hobj : ytSyncRelayObj (scrubMsg d) = ytSyncRelayObj d := rfl
            rw [hobj, scrub_getConn, scrubConn_roomId]
            congr 1
            exact scrub_relay_outs st w (ytSyncRelayObj d)
          · rw [scrubRaw]
            simp only [handleMessage, scrubMsg_type]
            rw [if_neg hj, if_neg h2, if_neg h3, if_neg hj, if_neg h2, if_neg h3]

theorem scrub_step (st : ServerState) (e : SEvent) :
    stepEv (scrubState st) (scrubEv e)
      = (scrubState (stepEv st e).1, (stepEv st e).2) := by
  cases e with
  | connect w => exact scrub_step_connect st w
  | message w raw => exact scrub_handleMessage st w raw
  | close w =>
      rw [stepEv, scrubEv, stepEv]
      rw [scrub_handleClose]

theorem scrub_run (st : ServerState) (evs : List SEvent) :
    runEvs (scrubState st) (evs.map scrubEv)
      = (scrubState (runEvs st evs).1, (runEvs st evs).2) := by
  induction evs generalizing st with
  | nil => rfl
  | cons e rest ih =>
      rw [List.map_cons, runEvs, runEvs, scrub_step]
      simp only []
      rw [ih]

/-- C8: the relay never applies the declared key material.  First, every
relayed `signal` envelope carries the sender's payload verbatim in its
payload field.  Second, any two full event traces that agree after
erasing all key material (that is, traces differing only in the key
values their joins declare) produce exactly the same deliveries, so the
relayed output is unchanged under any variation of the senders' or
receivers' keys. -/
theorem relay_ignores_key (st : ServerState) (w : Nat) (d : InMsg)
    (evs1 evs2 : List SEvent)
    (hty : d.type = some "signal")
    (hkeys : evs1.map scrubEv = evs2.map scrubEv) :
    (∀ o ∈ msgOuts st w (RawMsg.msg d),
      o.2.lookup "payload"
        = d.payload.map (fun p =>
            JVal.pay (p.sdp.map (fun q => (q.sdpType, q.content))) p.candidate)) ∧
    (runEvs initState evs1).2 = (runEvs initState evs2).2 := by
  constructor
  · intro o ho
    have h2 : o.2 = signalRelayObj (getConn st w).userId d.payload := by
      simp [msgOuts, handleMessage, hty, List.mem_map, List.mem_filter] at ho
      rcases ho with ⟨p, _, rfl⟩
      rfl
    rw [h2]
    rcases hu : (getConn st w).userId with _ | u <;>
      rcases hp : d.payload with _ | pl <;>
      simp [signalRelayObj, optStrField, optPayField, hu, hp, List.lookup]
  · have h1 := scrub_run initState evs1
    have h2 := scrub_run initState evs2
    rw [hkeys] at h1
    rw [h2] at h1
    exact (congrArg Prod.snd h1).symm

/-- Witness for C8: the concrete relayed envelope of room ABCD carries
the sender's payload verbatim, and the traces `evsW` and `evsW2`, which
differ only in the declared key, produce identical deliveries. -/
theorem relay_ignores_key_witness :
    ((1, signalRelayObj (some "alice") dSig.payload) : Nat × JObj).2.lookup "payload"
      = dSig.payload.map (fun p =>
          JVal.pay (p.sdp.map (fun q => (q.sdpType, q.content))) p.candidate) ∧
    (runEvs initState evsW).2 = (runEvs initState evsW2).2 :=
  ⟨(relay_ignores_key stW 0 dSig evsW evsW2 rfl (by decide)).1
     (1, signalRelayObj (some "alice") dSig.payload) (by decide),
   (relay_ignores_key stW 0 dSig evsW evsW2 rfl (by decide)).2⟩
